import Mathlib

/-!
Shallow embedding of `src/replay_events.rs` (crate `egui_replay`): the
record/replay state machine `ReplayManager`, its event classification, the
postprocessing merge `apply_event_postprocessing`, and the load/save codec
dispatch.  Timestamps (`NanoTimestamp`, an `i64` nanosecond count) are
modelled as `Int`; the replay core only carries them around.  File I/O is
modelled by explicit parameters (the outcome of `File::open`, the decoders)
and by an output log of saved files in the state.  A Rust panic is modelled
as `Option.none`.
-/

/-- Model of `egui::Pos2`.  The replay core only constructs positions and
copies them into events; it never performs arithmetic on the coordinates, so
the `f32` fields are modelled as integers. -/
structure Pos2 where
  x : Int
  y : Int
deriving DecidableEq, Repr

/-- Model of `egui::Key`.  The replay core only ever asks whether a key is
`F1`; every other key is opaque. -/
inductive EKey
  | F1
  | otherKey (code : Nat)
deriving DecidableEq, Repr

/-- Model of `egui::Event`, restricted to the structure the replay core
inspects: `Key { key, pressed, .. }`, `PointerMoved(pos)`, `MouseMoved(delta)`
and `PointerButton { pos, .. }`.  All remaining variants are opaque to the
core and are represented by `otherEvent`. -/
inductive Event
  | key (k : EKey) (pressed : Bool)
  | pointerMoved (pos : Pos2)
  | mouseMoved (delta : Pos2)
  | pointerButton (pos : Pos2) (pressed : Bool)
  | otherEvent (code : Nat)
deriving DecidableEq, Repr

/-- `NanoTimestamp` (src/timestamp.rs): an `i64` count of nanoseconds since
the Unix epoch. -/
abbrev NanoTimestamp := Int

/-- `FrameEvents`: a batch of events recorded/replayed in a single frame. -/
structure FrameEvents where
  time : NanoTimestamp
  events : List Event
deriving DecidableEq, Repr

/-- `egui::RawInput`, restricted to the `events` field, the only part the
replay core touches. -/
structure RawInput where
  events : List Event
deriving DecidableEq, Repr

/-- `is_f1_key` (src/replay_events.rs:99). -/
def is_f1_key : Event → Bool
  | .key k _ => k == .F1
  | _ => false

/-- `is_key_pressed` (src/replay_events.rs:107). -/
def is_key_pressed : Event → Bool
  | .key _ pressed => pressed
  | _ => false

/-- `is_pointer_moved` (src/replay_events.rs:115). -/
def is_pointer_moved : Event → Bool
  | .pointerMoved _ => true
  | _ => false

/-- One iteration of the inner event loop of `apply_event_postprocessing`
(src/replay_events.rs:132-166): either accumulate the event into the current
group, or flush the group and start a new one carrying the current frame's
timestamp. -/
def ppStep (acc : List FrameEvents × Option (Bool × FrameEvents))
    (frame_time : NanoTimestamp) (event : Event) :
    List FrameEvents × Option (Bool × FrameEvents) :=
  let event_is_pointer := is_pointer_moved event
  match acc with
  | (merged, some (group_type, group)) =>
    if group_type == event_is_pointer then
      (merged, some (group_type, { group with events := group.events ++ [event] }))
    else
      (merged ++ [group], some (event_is_pointer, ⟨frame_time, [event]⟩))
  | (merged, none) =>
    (merged, some (event_is_pointer, ⟨frame_time, [event]⟩))

/-- The outer frame loop body of `apply_event_postprocessing`
(src/replay_events.rs:130-167): process each event of a frame in order. -/
def ppFrame (acc : List FrameEvents × Option (Bool × FrameEvents))
    (frame : FrameEvents) : List FrameEvents × Option (Bool × FrameEvents) :=
  frame.events.foldl (fun a e => ppStep a frame.time e) acc

/-- `apply_event_postprocessing` (src/replay_events.rs:122-175).  The Rust
function unconditionally reads `frames[0]`, which panics on an empty input;
the panic is modelled by `none`.  Otherwise: emit the first frame unchanged,
run the merge loop over the remaining frames, and flush the pending group. -/
def apply_event_postprocessing : List FrameEvents → Option (List FrameEvents)
  | [] => none
  | f0 :: rest =>
    let res := rest.foldl ppFrame ([f0], none)
    match res.2 with
    | some (_, last_group) => some (res.1 ++ [last_group])
    | none => some res.1

/-- Model of Rust `str::ends_with` on file names, executable over the
underlying character list (the built-in `String.endsWith` does not reduce in
the kernel). -/
def ends_with (s suffix2 : String) : Bool :=
  suffix2.data.isSuffixOf s.data

/-- Error taxonomy of `load_replay`/`save_replay`: `ioError` for
`File::open`/`create` failures, `decodeError` for bincode/serde failures, and
`formatError` for the "Unknown file extension" error. -/
inductive LoadError
  | ioError
  | decodeError
  | formatError
deriving DecidableEq, Repr

/-- `load_replay` (src/replay_events.rs:46-56), with the file system and the
two codecs abstracted: `openResult` is the outcome of `File::open` (the
opened file's contents, or `none` on an I/O failure) and `decode_bin` /
`decode_json` are the outcomes of the two external decoders on given
contents. -/
def load_replay (openResult : Option String)
    (decode_bin decode_json : String → Except LoadError (List FrameEvents))
    (file_name : String) : Except LoadError (List FrameEvents) :=
  match openResult with
  | none => .error .ioError
  | some contents =>
    if ends_with file_name ".bin" then decode_bin contents
    else if ends_with file_name ".json" then decode_json contents
    else .error .formatError

/-- `event_logfile` (src/replay_events.rs:37-44).  The chrono-backed
`NanoTimestamp::as_rfc3339` rendering (src/timestamp.rs) is modelled by the
decimal rendering of the nanosecond count; both renderings are injective on
timestamps and no claim inspects the text itself. -/
def event_logfile (now : NanoTimestamp) (use_bincode : Bool) : String :=
  "./egui_replay" ++ "_" ++ toString now ++ "." ++
    (if use_bincode then "bin" else "json")

/-- `ReplayManager` (src/replay_events.rs:76-97).  The extra `saved_files`
field is the log of `save_replay` calls (file name and serialized frames),
modelling the write side effect. -/
structure ReplayManager where
  is_window_open : Bool
  is_replaying : Bool
  is_recording : Bool
  frame_events : List FrameEvents
  replay_index : Nat
  replay_file : String
  should_lookup_replay : Bool
  record_use_bincode : Bool
  record_apply_postprocessing : Bool
  simplify_pointer_events : Bool
  record_is_pointer_moving : Bool
  saved_files : List (String × List FrameEvents)
deriving DecidableEq, Repr

/-- `ReplayManager::new` (src/replay_events.rs:184-202). -/
def ReplayManager.new : ReplayManager where
  is_window_open := false
  is_replaying := false
  is_recording := false
  frame_events := []
  replay_index := 0
  replay_file := ""
  should_lookup_replay := true
  record_use_bincode := true
  record_apply_postprocessing := true
  simplify_pointer_events := true
  record_is_pointer_moving := false
  saved_files := []

/-- `ReplayManager::open_window` (src/replay_events.rs:204-211). -/
def ReplayManager.open_window (s : ReplayManager) : ReplayManager :=
  { s with is_window_open := true, is_replaying := false, is_recording := false,
           frame_events := [], replay_index := 0, should_lookup_replay := true }

/-- `ReplayManager::close_window` (src/replay_events.rs:213-219). -/
def ReplayManager.close_window (s : ReplayManager) : ReplayManager :=
  { s with is_window_open := false, is_replaying := false, is_recording := false,
           frame_events := [], replay_index := 0 }

/-- `ReplayManager::num_recorded_frames` (src/replay_events.rs:229). -/
def ReplayManager.num_recorded_frames (s : ReplayManager) : Nat :=
  s.frame_events.length

/-- `ReplayManager::should_record_event` (src/replay_events.rs:382-404).  The
Rust method mutates `self.record_is_pointer_moving`, so the model returns the
updated state alongside the boolean. -/
def ReplayManager.should_record_event (s : ReplayManager) (event : Event) :
    Bool × ReplayManager :=
  match event with
  | .mouseMoved _ => (false, s)
  | _ =>
    if is_f1_key event then (false, s)
    else if s.simplify_pointer_events then
      if is_pointer_moved event then
        if s.record_is_pointer_moving then (false, s)
        else (true, { s with record_is_pointer_moving := true })
      else (true, { s with record_is_pointer_moving := false })
    else (true, s)

/-- One iteration of the event loop of `on_raw_input_update` on the
non-replay path (src/replay_events.rs:335-372): F1 toggle handling followed
by the recording filter.  `none` models the panic of the `frames[0]` access
inside `apply_event_postprocessing` when recording stops on an empty
buffer. -/
def recordStep (now : NanoTimestamp) (acc : ReplayManager × List Event)
    (event : Event) : Option (ReplayManager × List Event) := do
  let (s, event_batch) := acc
  let s ←
    if is_f1_key event && is_key_pressed event then
      let s := { s with is_recording := !s.is_recording }
      if s.is_recording then
        pure { s with
          frame_events := [⟨now, [Event.pointerMoved ⟨0, 0⟩]⟩] }
      else
        let file_name := event_logfile now s.record_use_bincode
        let s ←
          if s.record_apply_postprocessing then
            match apply_event_postprocessing s.frame_events with
            | some processed => pure { s with frame_events := processed }
            | none => none
          else pure s
        pure { s with saved_files := s.saved_files ++ [(file_name, s.frame_events)] }
    else pure s
  if s.is_recording then
    let event_batch :=
      match event with
      | .pointerButton pos _ =>
        if s.simplify_pointer_events then
          event_batch ++ [Event.pointerMoved pos]
        else event_batch
      | _ => event_batch
    let res := s.should_record_event event
    let event_batch := if res.1 then event_batch ++ [event] else event_batch
    pure (res.2, event_batch)
  else
    pure (s, event_batch)

/-- `ReplayManager::on_raw_input_update` (src/replay_events.rs:314-380).  The
replay branch takes `frames[i].events` out of the buffer (leaving an empty
list behind, as `std::mem::take` does), increments the index, and closes the
window when the new index reaches the frame count; otherwise the event batch
is scanned for the F1 toggle and recorded events, and a non-empty recorded
batch is appended to the buffer.  `none` models a panic. -/
def ReplayManager.on_raw_input_update (s : ReplayManager) (now : NanoTimestamp)
    (raw_input : RawInput) : Option (ReplayManager × RawInput) :=
  if h : s.is_replaying ∧ s.replay_index < s.num_recorded_frames then
    let fe := s.frame_events.get ⟨s.replay_index, h.2⟩
    let s := { s with
      frame_events := s.frame_events.set s.replay_index { fe with events := [] } }
    let s := { s with replay_index := s.replay_index + 1 }
    let s := if s.num_recorded_frames ≤ s.replay_index then s.close_window else s
    some (s, { raw_input with events := fe.events })
  else do
    let res ← raw_input.events.foldlM (recordStep now) (s, [])
    let s := res.1
    let s :=
      if res.2.isEmpty then s
      else { s with frame_events := s.frame_events ++ [⟨now, res.2⟩] }
    pure (s, raw_input)

/-- The state-machine content of `ReplayManager::on_frame_update`
(src/replay_events.rs:237-312), with the modal rendering external: `lookup`
is the outcome of `get_first_ui_events_file`, `start_clicked` and
`close_clicked` tell whether the two modal buttons were clicked this frame,
and `load_result` is the outcome of `load_replay` on the current replay
file.  The buttons closure returns early while replaying, so neither button
acts then. -/
def ReplayManager.on_frame_update (s : ReplayManager) (lookup : Option String)
    (start_clicked : Bool) (load_result : Except LoadError (List FrameEvents))
    (close_clicked : Bool) : ReplayManager :=
  if !s.is_window_open then s
  else
    let s :=
      if s.should_lookup_replay then
        { s with replay_file := lookup.getD s.replay_file,
                 should_lookup_replay := false }
      else s
    if s.is_replaying then s
    else
      let s :=
        if start_clicked then
          match load_result with
          | .ok ui_events =>
            { s with is_replaying := true, frame_events := ui_events,
                     replay_index := 0 }
          | .error _ => s
        else s
      if close_clicked then s.close_window else s

/-- Length bound for `dropWhile`, used for termination of `groupRuns`. -/
theorem length_dropWhile_le {α : Type} (p : α → Bool) (l : List α) :
    (l.dropWhile p).length ≤ l.length := by
  induction l with
  | nil => simp
  | cons a l ih =>
    by_cases h : p a
    · rw [List.dropWhile_cons_of_pos h]
      exact Nat.le_succ_of_le ih
    · rw [List.dropWhile_cons_of_neg h]

/-- The ordered stream of the events of a frame list, each paired with its
frame's timestamp: what the spec's postprocessing description (§4.4) flattens
the non-anchor frames to. -/
def flattenTE (frames : List FrameEvents) : List (NanoTimestamp × Event) :=
  (frames.map (fun f => f.events.map (fun e => (f.time, e)))).flatten

/-- Whether a timestamped event has pointer-move classification `c`. -/
def sameClass (c : Bool) (p : NanoTimestamp × Event) : Bool :=
  is_pointer_moved p.2 == c

/-- Modelled from the spec (§4.4): regroup an ordered stream of timestamped
events into maximal runs of equal pointer-move classification, one frame per
run, stamped with the first event's original frame timestamp and preserving
the event order within the run. -/
def groupRuns : List (NanoTimestamp × Event) → List FrameEvents
  | [] => []
  | (t, e) :: rest =>
    ⟨t, e :: (rest.takeWhile (sameClass (is_pointer_moved e))).map Prod.snd⟩ ::
      groupRuns (rest.dropWhile (sameClass (is_pointer_moved e)))
termination_by l => l.length
decreasing_by
  simp only [List.length_cons]
  exact Nat.lt_succ_of_le (length_dropWhile_le _ rest)

/-- Modelled from the spec's words (§4.4), the refinement target of
`apply_event_postprocessing`: the anchor frame emitted unchanged and
unmerged, followed by the maximal-run regrouping of the remaining frames'
events; `none` on the empty input mirrors the implementation's panic. -/
def postprocessSpec : List FrameEvents → Option (List FrameEvents)
  | [] => none
  | f0 :: rest => some (f0 :: groupRuns (flattenTE rest))

/-- The inner event loop of the merge, as a fold over timestamped events. -/
def ppEvents (acc : List FrameEvents × Option (Bool × FrameEvents))
    (l : List (NanoTimestamp × Event)) :
    List FrameEvents × Option (Bool × FrameEvents) :=
  l.foldl (fun a p => ppStep a p.1 p.2) acc

/-- The frames the merge loop emits from stream `l` starting with pending
group `cur`, including the final flush. -/
def ppFlush (cur : Option (Bool × FrameEvents))
    (l : List (NanoTimestamp × Event)) : List FrameEvents :=
  match ppEvents ([], cur) l with
  | (m, some (_, g)) => m ++ [g]
  | (m, none) => m

theorem ppStep_merged (m : List FrameEvents) (cur : Option (Bool × FrameEvents))
    (t : NanoTimestamp) (e : Event) :
    ppStep (m, cur) t e =
      (m ++ (ppStep ([], cur) t e).1, (ppStep ([], cur) t e).2) := by
  rcases cur with _ | ⟨gt, g⟩
  · simp [ppStep]
  · by_cases h : gt = is_pointer_moved e <;> simp [ppStep, h]

theorem ppEvents_merged (l : List (NanoTimestamp × Event)) :
    ∀ (m : List FrameEvents) (cur : Option (Bool × FrameEvents)),
      ppEvents (m, cur) l =
        (m ++ (ppEvents ([], cur) l).1, (ppEvents ([], cur) l).2) := by
  induction l with
  | nil => intro m cur; simp [ppEvents]
  | cons p l ih =>
    intro m cur
    rcases hAC : ppStep ([], cur) p.1 p.2 with ⟨A, C⟩
    have h1 : ppEvents (m, cur) (p :: l) = ppEvents (m ++ A, C) l := by
      show ppEvents (ppStep (m, cur) p.1 p.2) l = _
      rw [ppStep_merged, hAC]
    have h2 : ppEvents ([], cur) (p :: l) = ppEvents (A, C) l := by
      show ppEvents (ppStep ([], cur) p.1 p.2) l = _
      rw [hAC]
    rw [h1, h2, ih, ih A C, List.append_assoc]

theorem foldl_ppFrame_eq (frames : List FrameEvents) :
    ∀ acc, frames.foldl ppFrame acc = ppEvents acc (flattenTE frames) := by
  induction frames with
  | nil => intro acc; simp [flattenTE, ppEvents]
  | cons f fs ih =>
    intro acc
    have hframe : ppFrame acc f =
        ppEvents acc (f.events.map (fun e => (f.time, e))) := by
      simp only [ppFrame, ppEvents, List.foldl_map]
    have hflat : flattenTE (f :: fs) =
        f.events.map (fun e => (f.time, e)) ++ flattenTE fs := by
      simp [flattenTE]
    rw [List.foldl_cons, ih, hframe, hflat]
    simp [ppEvents, List.foldl_append]

theorem apply_eq_ppFlush (f0 : FrameEvents) (rest : List FrameEvents) :
    apply_event_postprocessing (f0 :: rest) =
      some (f0 :: ppFlush none (flattenTE rest)) := by
  show (match (rest.foldl ppFrame ([f0], none)).2 with
        | some (_, last_group) =>
          some ((rest.foldl ppFrame ([f0], none)).1 ++ [last_group])
        | none => some (rest.foldl ppFrame ([f0], none)).1)
      = some (f0 :: ppFlush none (flattenTE rest))
  rw [foldl_ppFrame_eq, ppEvents_merged]
  unfold ppFlush
  rcases ppEvents ([], none) (flattenTE rest) with ⟨A, C⟩
  rcases C with _ | ⟨b, g⟩ <;> simp

theorem ppFlush_cons (cur : Option (Bool × FrameEvents)) (t : NanoTimestamp)
    (e : Event) (l : List (NanoTimestamp × Event)) :
    ppFlush cur ((t, e) :: l) =
      (ppStep ([], cur) t e).1 ++ ppFlush (ppStep ([], cur) t e).2 l := by
  unfold ppFlush
  rw [show ppEvents ([], cur) ((t, e) :: l) = ppEvents (ppStep ([], cur) t e) l
      from rfl]
  rcases hs : ppStep ([], cur) t e with ⟨M, cur2⟩
  rw [ppEvents_merged]
  rcases ppEvents ([], cur2) l with ⟨X, Y⟩
  rcases Y with _ | ⟨b, g⟩ <;> simp

theorem ppFlush_some (l : List (NanoTimestamp × Event)) :
    ∀ (c : Bool) (t : NanoTimestamp) (es : List Event),
      ppFlush (some (c, ⟨t, es⟩)) l =
        ⟨t, es ++ (l.takeWhile (sameClass c)).map Prod.snd⟩ ::
          groupRuns (l.dropWhile (sameClass c)) := by
  induction l with
  | nil => intro c t es; simp [ppFlush, ppEvents, groupRuns]
  | cons p l ih =>
    intro c t es
    obtain ⟨t2, e⟩ := p
    rw [ppFlush_cons]
    by_cases h : is_pointer_moved e = c
    · have hstep : ppStep ([], some (c, (⟨t, es⟩ : FrameEvents))) t2 e =
          ([], some (c, ⟨t, es ++ [e]⟩)) := by
        simp [ppStep, h]
      have hq : sameClass c (t2, e) = true := by simp [sameClass, h]
      rw [hstep]
      simp only [List.nil_append]
      rw [ih, List.takeWhile_cons_of_pos hq, List.dropWhile_cons_of_pos hq]
      simp
    · have hstep : ppStep ([], some (c, (⟨t, es⟩ : FrameEvents))) t2 e =
          ([⟨t, es⟩], some (is_pointer_moved e, ⟨t2, [e]⟩)) := by
        simp only [ppStep]
        have : (c == is_pointer_moved e) = false := by
          simp [Ne.symm h]
        simp [this]
      have hq : sameClass c (t2, e) = false := by simp [sameClass, h]
      rw [hstep]
      simp only []
      rw [ih, List.takeWhile_cons_of_neg (by simp [hq]),
          List.dropWhile_cons_of_neg (by simp [hq])]
      rw [groupRuns]
      simp

theorem ppFlush_none (l : List (NanoTimestamp × Event)) :
    ppFlush none l = groupRuns l := by
  cases l with
  | nil => simp [ppFlush, ppEvents, groupRuns]
  | cons p l =>
    obtain ⟨t, e⟩ := p
    rw [ppFlush_cons]
    have hstep : ppStep ([], none) t e =
        ([], some (is_pointer_moved e, ⟨t, [e]⟩)) := by
      simp [ppStep]
    rw [hstep]
    simp only [List.nil_append]
    rw [ppFlush_some, groupRuns]
    simp

theorem map_snd_map_pair (t : NanoTimestamp) (l : List Event) :
    (l.map (fun e => (t, e))).map Prod.snd = l := by
  induction l with
  | nil => rfl
  | cons e l ih => simp [ih]

theorem flattenTE_map_snd (fs : List FrameEvents) :
    (flattenTE fs).map Prod.snd = (fs.map FrameEvents.events).flatten := by
  induction fs with
  | nil => rfl
  | cons f fs ih =>
    simp only [flattenTE, List.map_cons, List.flatten_cons, List.map_append]
    rw [map_snd_map_pair]
    simp only [flattenTE] at ih
    rw [ih]

theorem groupRuns_join (l : List (NanoTimestamp × Event)) :
    ((groupRuns l).map FrameEvents.events).flatten = l.map Prod.snd := by
  induction l using groupRuns.induct with
  | case1 => simp [groupRuns]
  | case2 t e rest ih =>
    rw [groupRuns]
    simp only [List.map_cons, List.flatten_cons, ih]
    simp [← List.map_append, List.takeWhile_append_dropWhile]

theorem groupRuns_homog (l : List (NanoTimestamp × Event)) :
    ∀ g ∈ groupRuns l, ∀ e₁ ∈ g.events, ∀ e₂ ∈ g.events,
      is_pointer_moved e₁ = is_pointer_moved e₂ := by
  induction l using groupRuns.induct with
  | case1 => simp [groupRuns]
  | case2 t e rest ih =>
    rw [groupRuns]
    intro g hg
    have hclass : ∀ x ∈ e :: (rest.takeWhile
        (sameClass (is_pointer_moved e))).map Prod.snd,
        is_pointer_moved x = is_pointer_moved e := by
      intro x hx
      rcases List.mem_cons.mp hx with hx | hx
      · rw [hx]
      · obtain ⟨p, hp, hpx⟩ := List.mem_map.mp hx
        have := List.mem_takeWhile_imp hp
        simp only [sameClass, beq_iff_eq] at this
        rw [← hpx]; exact this
    rcases List.mem_cons.mp hg with hg | hg
    · intro e₁ h₁ e₂ h₂
      rw [hg] at h₁ h₂
      rw [hclass e₁ h₁, hclass e₂ h₂]
    · exact ih g hg

theorem takeWhile_append_of_all {α : Type} (p : α → Bool) (a b : List α)
    (h : ∀ x ∈ a, p x = true) :
    (a ++ b).takeWhile p = a ++ b.takeWhile p := by
  induction a with
  | nil => simp
  | cons x xs ih =>
    have hx : p x = true := h x (List.mem_cons_self x xs)
    simp only [List.cons_append, List.takeWhile_cons_of_pos hx]
    rw [ih fun y hy => h y (List.mem_cons_of_mem x hy)]

theorem dropWhile_append_of_all {α : Type} (p : α → Bool) (a b : List α)
    (h : ∀ x ∈ a, p x = true) :
    (a ++ b).dropWhile p = b.dropWhile p := by
  induction a with
  | nil => simp
  | cons x xs ih =>
    have hx : p x = true := h x (List.mem_cons_self x xs)
    simp only [List.cons_append, List.dropWhile_cons_of_pos hx]
    exact ih fun y hy => h y (List.mem_cons_of_mem x hy)

theorem dropWhile_head_false {α : Type} (p : α → Bool) (l : List α) :
    ∀ (a : α) (rest : List α), l.dropWhile p = a :: rest → p a = false := by
  induction l with
  | nil => intro a rest h; simp at h
  | cons x xs ih =>
    intro a rest h
    by_cases hx : p x
    · rw [List.dropWhile_cons_of_pos hx] at h
      exact ih a rest h
    · rw [List.dropWhile_cons_of_neg hx] at h
      cases h
      exact Bool.eq_false_iff.mpr hx

theorem groupRuns_idem (l : List (NanoTimestamp × Event)) :
    groupRuns (flattenTE (groupRuns l)) = groupRuns l := by
  induction l using groupRuns.induct with
  | case1 => simp [groupRuns, flattenTE]
  | case2 t e rest ih =>
    rw [groupRuns]
    have hflat : flattenTE
        ((⟨t, e :: (rest.takeWhile (sameClass (is_pointer_moved e))).map
            Prod.snd⟩ : FrameEvents) ::
          groupRuns (rest.dropWhile (sameClass (is_pointer_moved e)))) =
        (t, e) :: (((rest.takeWhile (sameClass (is_pointer_moved e))).map
            Prod.snd).map (fun ev => (t, ev)) ++
          flattenTE (groupRuns (rest.dropWhile
            (sameClass (is_pointer_moved e))))) := by
      simp [flattenTE]
    rw [hflat, groupRuns]
    have hall : ∀ x ∈ ((rest.takeWhile (sameClass (is_pointer_moved e))).map
        Prod.snd).map (fun ev => (t, ev)), sameClass (is_pointer_moved e) x = true := by
      intro x hx
      obtain ⟨ev, hev, hevx⟩ := List.mem_map.mp hx
      obtain ⟨p, hp, hpev⟩ := List.mem_map.mp hev
      have := List.mem_takeWhile_imp hp
      rw [← hevx]
      simpa [sameClass, hpev] using this
    rw [takeWhile_append_of_all _ _ _ hall, dropWhile_append_of_all _ _ _ hall]
    have htail : (flattenTE (groupRuns (rest.dropWhile
          (sameClass (is_pointer_moved e))))).takeWhile
            (sameClass (is_pointer_moved e)) = [] ∧
        (flattenTE (groupRuns (rest.dropWhile
          (sameClass (is_pointer_moved e))))).dropWhile
            (sameClass (is_pointer_moved e)) =
          flattenTE (groupRuns (rest.dropWhile
            (sameClass (is_pointer_moved e)))) := by
      rcases hrem : rest.dropWhile (sameClass (is_pointer_moved e)) with
        _ | ⟨⟨t2, e2⟩, rest2⟩
      · simp [groupRuns, flattenTE]
      · have hq : sameClass (is_pointer_moved e) (t2, e2) = false :=
          dropWhile_head_false _ rest _ _ hrem
        rw [groupRuns]
        have : flattenTE
            ((⟨t2, e2 :: (rest2.takeWhile (sameClass (is_pointer_moved e2))).map
                Prod.snd⟩ : FrameEvents) ::
              groupRuns (rest2.dropWhile (sameClass (is_pointer_moved e2)))) =
            (t2, e2) :: (((rest2.takeWhile (sameClass (is_pointer_moved e2))).map
                Prod.snd).map (fun ev => (t2, ev)) ++
              flattenTE (groupRuns (rest2.dropWhile
                (sameClass (is_pointer_moved e2))))) := by
          simp [flattenTE]
        rw [this, List.takeWhile_cons_of_neg (by simp [hq]),
            List.dropWhile_cons_of_neg (by simp [hq])]
        exact ⟨rfl, rfl⟩
    rw [htail.1, htail.2, List.append_nil, ih]
    congr 2
    rw [map_snd_map_pair]

/-- C2: for every non-empty list of recorded frames,
`apply_event_postprocessing` emits the anchor frame unmodified and unmerged,
then partitions the remaining frames' events, in order, into maximal runs of
equal pointer-move classification, emitting one merged frame per run whose
timestamp is the original frame timestamp of the run's first event, with the
original event order preserved within each run (refinement against
`postprocessSpec`, the direct rendering of the spec's words; on the empty
list both sides agree as well). -/
theorem apply_event_postprocessing_eq_spec (frames : List FrameEvents) :
    apply_event_postprocessing frames = postprocessSpec frames := by
  cases frames with
  | nil => rfl
  | cons f0 rest =>
    rw [apply_eq_ppFlush, ppFlush_none]
    rfl

/-- C3: for every non-empty input, postprocessing leaves the anchor frame in
place, preserves the concatenation of all event lists (total event count and
relative order), and emits no frame after the first that mixes a
pointer-move event with a non-pointer-move event. -/
theorem postprocessing_preserves_order_and_purity (f0 : FrameEvents)
    (rest out : List FrameEvents)
    (h : apply_event_postprocessing (f0 :: rest) = some out) :
    out.head? = some f0 ∧
    (out.map FrameEvents.events).flatten =
      ((f0 :: rest).map FrameEvents.events).flatten ∧
    ∀ g ∈ out.drop 1, ∀ e₁ ∈ g.events, ∀ e₂ ∈ g.events,
      is_pointer_moved e₁ = is_pointer_moved e₂ := by
  rw [apply_eq_ppFlush, ppFlush_none, Option.some_inj] at h
  subst h
  refine ⟨rfl, ?_, ?_⟩
  · simp only [List.map_cons, List.flatten_cons, groupRuns_join,
      flattenTE_map_snd]
  · intro g hg
    exact groupRuns_homog (flattenTE rest) g (by simpa using hg)

/-- Witness for C3 at a concrete session: anchor plus one frame holding a
non-pointer event followed by a pointer move, which postprocessing splits
into two pure frames. -/
theorem postprocessing_preserves_order_and_purity_witness :
    ([(⟨0, [Event.pointerMoved ⟨0, 0⟩]⟩ : FrameEvents),
      ⟨1, [Event.otherEvent 1]⟩, ⟨1, [Event.pointerMoved ⟨2, 2⟩]⟩] :
        List FrameEvents).head? = some ⟨0, [Event.pointerMoved ⟨0, 0⟩]⟩ ∧
    (([(⟨0, [Event.pointerMoved ⟨0, 0⟩]⟩ : FrameEvents),
      ⟨1, [Event.otherEvent 1]⟩, ⟨1, [Event.pointerMoved ⟨2, 2⟩]⟩] :
        List FrameEvents).map FrameEvents.events).flatten =
      (([(⟨0, [Event.pointerMoved ⟨0, 0⟩]⟩ : FrameEvents),
        ⟨1, [Event.otherEvent 1, Event.pointerMoved ⟨2, 2⟩]⟩] :
          List FrameEvents).map FrameEvents.events).flatten ∧
    ∀ g ∈ ([(⟨0, [Event.pointerMoved ⟨0, 0⟩]⟩ : FrameEvents),
      ⟨1, [Event.otherEvent 1]⟩, ⟨1, [Event.pointerMoved ⟨2, 2⟩]⟩] :
        List FrameEvents).drop 1,
      ∀ e₁ ∈ g.events, ∀ e₂ ∈ g.events,
        is_pointer_moved e₁ = is_pointer_moved e₂ :=
  postprocessing_preserves_order_and_purity
    ⟨0, [Event.pointerMoved ⟨0, 0⟩]⟩
    [⟨1, [Event.otherEvent 1, Event.pointerMoved ⟨2, 2⟩]⟩]
    [⟨0, [Event.pointerMoved ⟨0, 0⟩]⟩, ⟨1, [Event.otherEvent 1]⟩,
      ⟨1, [Event.pointerMoved ⟨2, 2⟩]⟩] rfl

/-- C9 counterexample: on the empty frame list `apply_event_postprocessing`
does not return the empty list; the `frames[0]` access panics (modelled as
`none`), so the function is not a total no-op there. -/
theorem postprocessing_empty_not_noop_cex :
    ¬ (apply_event_postprocessing [] = some []) := by
  simp [apply_event_postprocessing]

/-- C9 amended: `apply_event_postprocessing` on the empty frame list fails
(the unconditional `frames[0]` access panics, modelled as `none`); callers
rely on an implicit non-emptiness precondition instead of an explicit
guard. -/
theorem postprocessing_empty_panics :
    apply_event_postprocessing [] = none := rfl

/-- C10: `apply_event_postprocessing` is idempotent: whenever it succeeds,
applying it to its own output returns that output unchanged. -/
theorem apply_event_postprocessing_idem (frames out : List FrameEvents)
    (h : apply_event_postprocessing frames = some out) :
    apply_event_postprocessing out = some out := by
  cases frames with
  | nil => simp [apply_event_postprocessing] at h
  | cons f0 rest =>
    rw [apply_eq_ppFlush, ppFlush_none, Option.some_inj] at h
    subst h
    rw [apply_eq_ppFlush, ppFlush_none, groupRuns_idem]

/-- Witness for C10 at a concrete session (two pointer moves merged into one
run; the result is a fixed point of the merge). -/
theorem apply_event_postprocessing_idem_witness :
    apply_event_postprocessing
      [⟨0, []⟩, ⟨1, [Event.pointerMoved ⟨1, 1⟩, Event.pointerMoved ⟨2, 2⟩]⟩] =
      some [⟨0, []⟩,
        ⟨1, [Event.pointerMoved ⟨1, 1⟩, Event.pointerMoved ⟨2, 2⟩]⟩] :=
  apply_event_postprocessing_idem
    [⟨0, []⟩, ⟨1, [Event.pointerMoved ⟨1, 1⟩, Event.pointerMoved ⟨2, 2⟩]⟩]
    [⟨0, []⟩, ⟨1, [Event.pointerMoved ⟨1, 1⟩, Event.pointerMoved ⟨2, 2⟩]⟩] rfl

/-- C1 counterexample: a loaded 3-frame session, ticked three times.  The
claim says the manager "automatically closes on the fourth tick", i.e. after
the three delivering ticks it would still be replaying with the window open;
in fact the third tick (the one delivering the last frame) already
transitions to not-replaying and closes the window. -/
theorem replay_closed_after_third_tick_cex :
    ((({ ReplayManager.new with
          is_window_open := true, is_replaying := true
          frame_events := [⟨0, [Event.pointerMoved ⟨1, 1⟩]⟩,
            ⟨1, [Event.otherEvent 1]⟩, ⟨2, [Event.otherEvent 2]⟩] } :
        ReplayManager).on_raw_input_update 10 ⟨[]⟩).bind
      (fun p => (p.1.on_raw_input_update 11 ⟨[]⟩).bind
        (fun q => q.1.on_raw_input_update 12 ⟨[]⟩))).map
      (fun r => (r.1.is_replaying, r.1.is_window_open)) =
    some (false, false) := by
  rfl

/-- C1 amended: while replaying with index `i < frames.len()`, a tick
replaces the host batch entirely with `frames[i].events` and increments the
index; if the new index is still below the frame count the manager keeps
replaying, and if it has reached the frame count the manager transitions to
not-replaying and closes the window on that same tick (not on the following
one).  Once not replaying, a tick never modifies the host batch. -/
theorem replay_tick_delivers_and_closes (s : ReplayManager)
    (now : NanoTimestamp) (raw : RawInput) (hrep : s.is_replaying = true)
    (hlt : s.replay_index < s.frame_events.length) :
    (∃ s2 : ReplayManager,
      s.on_raw_input_update now raw =
        some (s2, { raw with events :=
          (s.frame_events.get ⟨s.replay_index, hlt⟩).events }) ∧
      (s.replay_index + 1 < s.frame_events.length →
        s2 = { s with
          frame_events := s.frame_events.set s.replay_index
            { s.frame_events.get ⟨s.replay_index, hlt⟩ with events := [] },
          replay_index := s.replay_index + 1 }) ∧
      (s.replay_index + 1 = s.frame_events.length →
        s2 = { s with
          is_window_open := false, is_replaying := false
          is_recording := false, frame_events := [], replay_index := 0 })) ∧
    (∀ (s3 : ReplayManager) (raw3 : RawInput) (res : ReplayManager × RawInput),
      s3.is_replaying = false → s3.on_raw_input_update now raw3 = some res →
      res.2 = raw3) := by
  constructor
  · simp only [ReplayManager.on_raw_input_update]
    rw [dif_pos (show s.is_replaying = true ∧
      s.replay_index < s.num_recorded_frames from ⟨hrep, hlt⟩)]
    refine ⟨_, rfl, ?_, ?_⟩
    · intro hlt2
      have hcond : ¬ (({ s with
          frame_events := s.frame_events.set s.replay_index
            { s.frame_events.get ⟨s.replay_index, hlt⟩ with events := [] },
          replay_index := s.replay_index + 1 } :
            ReplayManager).num_recorded_frames ≤ s.replay_index + 1) := by
        simp only [ReplayManager.num_recorded_frames, List.length_set]
        omega
      rw [if_neg hcond]
    · intro heq
      have hcond : (({ s with
          frame_events := s.frame_events.set s.replay_index
            { s.frame_events.get ⟨s.replay_index, hlt⟩ with events := [] },
          replay_index := s.replay_index + 1 } :
            ReplayManager).num_recorded_frames ≤ s.replay_index + 1) := by
        simp only [ReplayManager.num_recorded_frames, List.length_set]
        omega
      rw [if_pos hcond]
      rfl
  · intro s3 raw3 res hrep3 hres
    simp only [ReplayManager.on_raw_input_update] at hres
    rw [dif_neg (by simp [hrep3])] at hres
    rcases hfold : raw3.events.foldlM (recordStep now) (s3, []) with _ | acc
    · rw [hfold] at hres
      simp at hres
    · rw [hfold] at hres
      simp at hres
      rw [← hres]

/-- Witness for C1's amended theorem at a concrete 3-frame session, first
tick: frame 0 is delivered and the index moves to 1 with the session still
replaying. -/
theorem replay_tick_delivers_and_closes_witness :
    ((∃ s2 : ReplayManager,
      ({ ReplayManager.new with
          is_window_open := true, is_replaying := true
          frame_events := [⟨0, [Event.pointerMoved ⟨1, 1⟩]⟩,
            ⟨1, [Event.otherEvent 1]⟩, ⟨2, [Event.otherEvent 2]⟩] } :
        ReplayManager).on_raw_input_update 10 ⟨[]⟩ =
        some (s2, ⟨[Event.pointerMoved ⟨1, 1⟩]⟩) ∧
      (0 + 1 < 3 →
        s2 = { ReplayManager.new with
          is_window_open := true, is_replaying := true
          frame_events := [⟨0, []⟩, ⟨1, [Event.otherEvent 1]⟩,
            ⟨2, [Event.otherEvent 2]⟩]
          replay_index := 1 }) ∧
      (0 + 1 = 3 →
        s2 = { ReplayManager.new with
          is_window_open := false, is_replaying := false
          is_recording := false, frame_events := []
          replay_index := 0 })) ∧
    (∀ (s3 : ReplayManager) (raw3 : RawInput) (res : ReplayManager × RawInput),
      s3.is_replaying = false → s3.on_raw_input_update 10 raw3 = some res →
      res.2 = raw3)) :=
  replay_tick_delivers_and_closes
    { ReplayManager.new with
        is_window_open := true, is_replaying := true
        frame_events := [⟨0, [Event.pointerMoved ⟨1, 1⟩]⟩,
          ⟨1, [Event.otherEvent 1]⟩, ⟨2, [Event.otherEvent 2]⟩] }
    10 ⟨[]⟩ rfl (by decide)

/-- C4: a toggle-key press processed while neither recording nor replaying
enters `Recording`, clears the frame buffer and seeds it with the single
synthetic frame `[{t: now, events: [PointerMoved(0,0)]}]`; with a batch
containing only the toggle press, the buffer after the tick is exactly that
one frame (the toggle itself is never recorded).  The first conjunct states
the per-event transition, the second the whole tick. -/
theorem toggle_start_seeds_buffer (s : ReplayManager) (now : NanoTimestamp)
    (e : Event) (hrec : s.is_recording = false) (hrep : s.is_replaying = false)
    (htog : is_f1_key e = true) (hpress : is_key_pressed e = true) :
    (∀ batch : List Event,
      recordStep now (s, batch) e =
        some ({ s with
          is_recording := true
          frame_events := [⟨now, [Event.pointerMoved ⟨0, 0⟩]⟩] }, batch)) ∧
    s.on_raw_input_update now ⟨[e]⟩ =
      some ({ s with
        is_recording := true
        frame_events := [⟨now, [Event.pointerMoved ⟨0, 0⟩]⟩] }, ⟨[e]⟩) := by
  cases e with
  | key k p =>
    have hk : k = EKey.F1 := by
      simpa [is_f1_key] using htog
    have hp : p = true := by
      simpa [is_key_pressed] using hpress
    subst hk hp
    have hstep : ∀ batch : List Event,
        recordStep now (s, batch) (Event.key EKey.F1 true) =
          some ({ s with
            is_recording := true
            frame_events := [⟨now, [Event.pointerMoved ⟨0, 0⟩]⟩] }, batch) := by
      intro batch
      simp [recordStep, hrec, is_f1_key, is_key_pressed,
        ReplayManager.should_record_event]
    refine ⟨hstep, ?_⟩
    simp only [ReplayManager.on_raw_input_update]
    rw [dif_neg (by simp [hrep])]
    simp [List.foldlM, hstep []]
  | pointerMoved pos => simp [is_f1_key] at htog
  | mouseMoved d => simp [is_f1_key] at htog
  | pointerButton pos p => simp [is_f1_key] at htog
  | otherEvent c => simp [is_f1_key] at htog

/-- Witness for C4: pressing F1 on a fresh manager starts recording with the
seeded anchor frame and leaves the host batch unchanged. -/
theorem toggle_start_seeds_buffer_witness :
    ReplayManager.new.on_raw_input_update 0 ⟨[Event.key EKey.F1 true]⟩ =
      some ({ ReplayManager.new with
        is_recording := true
        frame_events := [⟨0, [Event.pointerMoved ⟨0, 0⟩]⟩] },
        ⟨[Event.key EKey.F1 true]⟩) :=
  (toggle_start_seeds_buffer ReplayManager.new 0 (Event.key EKey.F1 true)
    rfl rfl rfl rfl).2

/-- C5 counterexample: while recording with simplification on, the batch
[PointerMoved(1,1), MouseMoved, PointerMoved(2,2)] records only the first
pointer move.  The claim says pointer moves are suppressed "until a
non-pointer-move event resets the is-moving flag, after which the next
pointer-move event is recorded again"; MouseMoved is a non-pointer-move
event (second conjunct), yet the following PointerMoved(2,2) is not
recorded, because MouseMoved is dropped before the flag logic and leaves the
flag set. -/
theorem mouse_moved_not_resetting_cex :
    ((({ ReplayManager.new with
          is_recording := true
          frame_events := [⟨0, [Event.pointerMoved ⟨0, 0⟩]⟩] } :
        ReplayManager).on_raw_input_update 5
        ⟨[Event.pointerMoved ⟨1, 1⟩, Event.mouseMoved ⟨1, 1⟩,
          Event.pointerMoved ⟨2, 2⟩]⟩).map (fun p => p.1.frame_events)) =
      some [⟨0, [Event.pointerMoved ⟨0, 0⟩]⟩,
        ⟨5, [Event.pointerMoved ⟨1, 1⟩]⟩] ∧
    is_pointer_moved (Event.mouseMoved ⟨1, 1⟩) = false := by
  exact ⟨rfl, rfl⟩

/-- C5 amended: with simplification enabled, only the first pointer move of
a run is recorded and the is-moving flag is reset exactly by the events that
reach the simplification logic and are not pointer moves; MouseMoved and
toggle-key events are dropped before that logic and leave the flag
untouched, so they do not end a run. -/
theorem should_record_event_flag_dynamics (s : ReplayManager) (e : Event)
    (hsimp : s.simplify_pointer_events = true) :
    (is_pointer_moved e = true → s.record_is_pointer_moving = true →
      s.should_record_event e = (false, s)) ∧
    (is_pointer_moved e = true → s.record_is_pointer_moving = false →
      s.should_record_event e =
        (true, { s with record_is_pointer_moving := true })) ∧
    ((∀ d : Pos2, e ≠ Event.mouseMoved d) → is_f1_key e = false →
      is_pointer_moved e = false →
      s.should_record_event e =
        (true, { s with record_is_pointer_moving := false })) ∧
    ((∃ d : Pos2, e = Event.mouseMoved d) ∨ is_f1_key e = true →
      s.should_record_event e = (false, s)) := by
  cases e with
  | key k p =>
    refine ⟨fun h1 _ => by simp [is_pointer_moved] at h1,
      fun h1 _ => by simp [is_pointer_moved] at h1, ?_, ?_⟩
    · intro _ hf1 _
      simp [ReplayManager.should_record_event, hf1, hsimp, is_pointer_moved]
    · rintro (⟨d, hd⟩ | hf1)
      · exact absurd hd (by simp)
      · simp [ReplayManager.should_record_event, hf1]
  | pointerMoved pos =>
    refine ⟨fun _ hmov => ?_, fun _ hmov => ?_, fun _ _ h3 => ?_, ?_⟩
    · simp [ReplayManager.should_record_event, is_f1_key, hsimp,
        is_pointer_moved, hmov]
    · simp [ReplayManager.should_record_event, is_f1_key, hsimp,
        is_pointer_moved, hmov]
    · simp [is_pointer_moved] at h3
    · rintro (⟨d, hd⟩ | hf1)
      · exact absurd hd (by simp)
      · simp [is_f1_key] at hf1
  | mouseMoved d =>
    refine ⟨fun h1 _ => by simp [is_pointer_moved] at h1,
      fun h1 _ => by simp [is_pointer_moved] at h1,
      fun h3 _ _ => absurd rfl (h3 d),
      fun _ => by simp [ReplayManager.should_record_event]⟩
  | pointerButton pos p =>
    refine ⟨fun h1 _ => by simp [is_pointer_moved] at h1,
      fun h1 _ => by simp [is_pointer_moved] at h1, ?_, ?_⟩
    · intro _ _ _
      simp [ReplayManager.should_record_event, is_f1_key, hsimp,
        is_pointer_moved]
    · rintro (⟨d, hd⟩ | hf1)
      · exact absurd hd (by simp)
      · simp [is_f1_key] at hf1
  | otherEvent c =>
    refine ⟨fun h1 _ => by simp [is_pointer_moved] at h1,
      fun h1 _ => by simp [is_pointer_moved] at h1, ?_, ?_⟩
    · intro _ _ _
      simp [ReplayManager.should_record_event, is_f1_key, hsimp,
        is_pointer_moved]
    · rintro (⟨d, hd⟩ | hf1)
      · exact absurd hd (by simp)
      · simp [is_f1_key] at hf1

/-- Witness for C5's amended theorem: with the is-moving flag set, a further
pointer move is suppressed and the state is unchanged. -/
theorem should_record_event_flag_dynamics_witness :
    ({ ReplayManager.new with record_is_pointer_moving := true } :
        ReplayManager).should_record_event (Event.pointerMoved ⟨3, 4⟩) =
      (false, { ReplayManager.new with record_is_pointer_moving := true }) :=
  (should_record_event_flag_dynamics
    { ReplayManager.new with record_is_pointer_moving := true }
    (Event.pointerMoved ⟨3, 4⟩) rfl).1 rfl rfl

/-- C6 counterexample: stopping a recording (toggle press while recording)
saves the session but does not clear the frame buffer; after the stop tick
the buffer still holds the postprocessed frames, while the claim says it is
empty. -/
theorem stop_tick_keeps_buffer_cex :
    ((({ ReplayManager.new with
          is_recording := true
          frame_events := [⟨0, [Event.pointerMoved ⟨0, 0⟩]⟩] } :
        ReplayManager).on_raw_input_update 1
        ⟨[Event.key EKey.F1 true]⟩).map (fun p => p.1.frame_events)) =
      some [⟨0, [Event.pointerMoved ⟨0, 0⟩]⟩] ∧
    ¬ ((({ ReplayManager.new with
          is_recording := true
          frame_events := [⟨0, [Event.pointerMoved ⟨0, 0⟩]⟩] } :
        ReplayManager).on_raw_input_update 1
        ⟨[Event.key EKey.F1 true]⟩).map (fun p => p.1.frame_events)) =
      some [] := by
  exact ⟨rfl, by decide⟩

/-- C6 amended: a toggle press processed while recording exits `Recording`
and, in order, applies the postprocessing merge (when enabled), persists the
postprocessed buffer via the codec to the freshly named log file, and keeps
the postprocessed frames in the buffer (the buffer is not cleared on the
stop tick; it is cleared again on the next recording start or window
open/close). -/
theorem toggle_stop_saves_and_keeps_buffer (s : ReplayManager)
    (now : NanoTimestamp) (e : Event) (processed : List FrameEvents)
    (hrec : s.is_recording = true) (hrep : s.is_replaying = false)
    (htog : is_f1_key e = true) (hpress : is_key_pressed e = true)
    (hpp : s.record_apply_postprocessing = true)
    (hproc : apply_event_postprocessing s.frame_events = some processed) :
    s.on_raw_input_update now ⟨[e]⟩ =
      some ({ s with
        is_recording := false
        frame_events := processed
        saved_files := s.saved_files ++
          [(event_logfile now s.record_use_bincode, processed)] }, ⟨[e]⟩) := by
  cases e with
  | key k p =>
    have hk : k = EKey.F1 := by
      simpa [is_f1_key] using htog
    have hp : p = true := by
      simpa [is_key_pressed] using hpress
    subst hk hp
    have hstep : recordStep now (s, []) (Event.key EKey.F1 true) =
        some ({ s with
          is_recording := false
          frame_events := processed
          saved_files := s.saved_files ++
            [(event_logfile now s.record_use_bincode, processed)] }, []) := by
      simp [recordStep, hrec, is_f1_key, is_key_pressed, hpp, hproc]
    simp only [ReplayManager.on_raw_input_update]
    rw [dif_neg (by simp [hrep])]
    simp [List.foldlM, hstep]
  | pointerMoved pos => simp [is_f1_key] at htog
  | mouseMoved d => simp [is_f1_key] at htog
  | pointerButton pos p => simp [is_f1_key] at htog
  | otherEvent c => simp [is_f1_key] at htog

/-- Witness for C6's amended theorem: stopping a one-frame recording at t=1
saves the postprocessed buffer to the bincode log file and keeps it in
`frame_events`. -/
theorem toggle_stop_saves_and_keeps_buffer_witness :
    ({ ReplayManager.new with
        is_recording := true
        frame_events := [⟨0, [Event.pointerMoved ⟨0, 0⟩]⟩] } :
      ReplayManager).on_raw_input_update 1 ⟨[Event.key EKey.F1 true]⟩ =
      some ({ ReplayManager.new with
        is_recording := false
        frame_events := [⟨0, [Event.pointerMoved ⟨0, 0⟩]⟩]
        saved_files := [(event_logfile 1 true,
          [⟨0, [Event.pointerMoved ⟨0, 0⟩]⟩])] }, ⟨[Event.key EKey.F1 true]⟩) :=
  toggle_stop_saves_and_keeps_buffer
    { ReplayManager.new with
        is_recording := true
        frame_events := [⟨0, [Event.pointerMoved ⟨0, 0⟩]⟩] }
    1 (Event.key EKey.F1 true) [⟨0, [Event.pointerMoved ⟨0, 0⟩]⟩]
    rfl rfl rfl rfl rfl rfl

/-- C7 (code bug): from a fresh manager, open the window, press F1 (recording
starts), then click "Start replay" with a successfully loaded one-frame
session: the button handler checks only `is_replaying`, not `is_recording`,
so the resulting state is recording and replaying at the same time, violating
the claimed invariant. -/
theorem recording_while_replaying_reachable :
    ((ReplayManager.new.open_window.on_raw_input_update 0
        ⟨[Event.key EKey.F1 true]⟩).map
      (fun p =>
        ((p.1.on_frame_update none true
            (.ok [⟨0, [Event.pointerMoved ⟨0, 0⟩]⟩]) false).is_recording,
         (p.1.on_frame_update none true
            (.ok [⟨0, [Event.pointerMoved ⟨0, 0⟩]⟩]) false).is_replaying))) =
      some (true, true) := by
  rfl

/-- C8: loading from a file whose name ends in neither `.bin` nor `.json`
yields the Format ("Unknown file extension") error regardless of the file's
contents, and the failed replay start leaves the manager not replaying, with
`frame_events` and `replay_index` unmodified and the window still open. -/
theorem load_unknown_extension_error_state_unchanged (s : ReplayManager)
    (contents : String)
    (decode_bin decode_json : String → Except LoadError (List FrameEvents))
    (file_name : String) (lookup : Option String)
    (hopen : s.is_window_open = true) (hrep : s.is_replaying = false)
    (hbin : ends_with file_name ".bin" = false)
    (hjson : ends_with file_name ".json" = false) :
    load_replay (some contents) decode_bin decode_json file_name =
      .error .formatError ∧
    ((s.on_frame_update lookup true
        (load_replay (some contents) decode_bin decode_json file_name)
        false).is_replaying = false ∧
      (s.on_frame_update lookup true
        (load_replay (some contents) decode_bin decode_json file_name)
        false).frame_events = s.frame_events ∧
      (s.on_frame_update lookup true
        (load_replay (some contents) decode_bin decode_json file_name)
        false).replay_index = s.replay_index ∧
      (s.on_frame_update lookup true
        (load_replay (some contents) decode_bin decode_json file_name)
        false).is_window_open = true) := by
  have hload : load_replay (some contents) decode_bin decode_json file_name =
      .error .formatError := by
    simp [load_replay, hbin, hjson]
  refine ⟨hload, ?_⟩
  rw [hload]
  by_cases hl : s.should_lookup_replay = true
  · simp [ReplayManager.on_frame_update, hopen, hrep, hl]
  · simp [ReplayManager.on_frame_update, hopen, hrep, hl]

/-- Witness for C8: a `.txt` file on an open, idle manager. -/
theorem load_unknown_extension_error_state_unchanged_witness :
    load_replay (some "") (fun _ => .ok []) (fun _ => .ok [])
      "egui_replay_2024.txt" = .error .formatError ∧
    ((ReplayManager.new.open_window.on_frame_update none true
        (load_replay (some "") (fun _ => .ok []) (fun _ => .ok [])
          "egui_replay_2024.txt")
        false).is_replaying = false ∧
      (ReplayManager.new.open_window.on_frame_update none true
        (load_replay (some "") (fun _ => .ok []) (fun _ => .ok [])
          "egui_replay_2024.txt")
        false).frame_events = ReplayManager.new.open_window.frame_events ∧
      (ReplayManager.new.open_window.on_frame_update none true
        (load_replay (some "") (fun _ => .ok []) (fun _ => .ok [])
          "egui_replay_2024.txt")
        false).replay_index = ReplayManager.new.open_window.replay_index ∧
      (ReplayManager.new.open_window.on_frame_update none true
        (load_replay (some "") (fun _ => .ok []) (fun _ => .ok [])
          "egui_replay_2024.txt")
        false).is_window_open = true) :=
  load_unknown_extension_error_state_unchanged ReplayManager.new.open_window
    "" (fun _ => .ok []) (fun _ => .ok []) "egui_replay_2024.txt" none
    rfl rfl (by decide) (by decide)
